import Mathlib

/-!
Verification of the AthenaX peer-to-peer file transfer system.

The development shallowly embeds the algorithmic core of the repository:

* the peer directory with role-based visibility (`server.js` v2/v3: the
  `peers` map, `getPeerListFor`, `broadcastPeerLists`, the `set-mode` and
  `disconnect` handlers);
* the signaling relay for `offer` / `answer` / `ice-candidate` and the v3
  file relay (`transfer-request`, `file-chunk` with acknowledgement);
* the browser client (`public/app.js`): the direct-variant chunked sender
  with watermark backpressure, the receiver assembler
  (`handleReceivedMessage` / `assembleAndDownload`), and the busy-flag
  guards on the send button and the incoming-offer handler.

Machine state that in the source lives in module-level mutable variables
(the `peers` map, the `rx` record, `isBusy`) is passed explicitly; socket
emissions become returned values.
-/

namespace AthenaX

/-- One registered peer, as stored in the server's `peers` map:
`{ id, name, mode }` with `mode` one of `"none" | "sender" | "receiver"`.
The mode is kept as the raw string the JavaScript stores. -/
structure Peer where
  id : String
  name : String
  mode : String
deriving Repr, DecidableEq

/-- The server's `peers` registry: a JavaScript `Map<socketId, Peer>`,
modelled as an association list in insertion order (JS `Map` iteration
order is insertion order). -/
abbrev Directory := List (String × Peer)

/-- `peers.get(socketId)`. -/
def lookupPeer (peers : Directory) (socketId : String) : Option Peer :=
  match peers.find? (fun kv => kv.1 == socketId) with
  | some kv => some kv.2
  | none => none

/-- `peers.has(socketId)`. -/
def hasPeer (peers : Directory) (socketId : String) : Bool :=
  (lookupPeer peers socketId).isSome

/-- The `connection` handler's registration step:
`peers.set(socket.id, { id: socket.id, name, mode: "none" })` for a fresh
socket id (a fresh key appends at the end of a JS `Map`). -/
def registerPeer (peers : Directory) (socketId name : String) : Directory :=
  peers ++ [(socketId, { id := socketId, name := name, mode := "none" })]

/-- The `set-mode` handler (server v2/v3): looks the peer up, ignores the
message when the peer is unknown or the mode is neither `"sender"` nor
`"receiver"`, otherwise mutates `peer.mode` in place (preserving the map's
iteration order). -/
def setMode (peers : Directory) (socketId mode : String) : Directory :=
  match lookupPeer peers socketId with
  | none => peers
  | some _ =>
    if mode ≠ "sender" ∧ mode ≠ "receiver" then peers
    else peers.map (fun kv =>
      if kv.1 == socketId then (kv.1, { kv.2 with mode := mode }) else kv)

/-- `peers.delete(socketId)`: removes the entry stored under that key
(keys are unique, so filtering them all out is the same operation). -/
def removePeer (peers : Directory) (socketId : String) : Directory :=
  peers.filter (fun kv => kv.1 ≠ socketId)

/-- `getPeerListFor(socketId)` (server v2 and v3, identical):
returns `[]` unless the caller is registered with mode `"sender"`,
otherwise every stored peer with `p.id !== socketId && p.mode === "receiver"`,
in map iteration order. -/
def getPeerListFor (peers : Directory) (socketId : String) : List Peer :=
  match lookupPeer peers socketId with
  | none => []
  | some self =>
    if self.mode ≠ "sender" then []
    else (peers.map Prod.snd).filter
      (fun p => p.id != socketId && p.mode == "receiver")

/-- `broadcastPeerLists()`: emits to every connected socket its own filtered
view of the directory. -/
def broadcastPeerLists (peers : Directory) : List (String × List Peer) :=
  peers.map (fun kv => (kv.1, getPeerListFor peers kv.1))

/-- The server's `disconnect` handler (v2 and v3): delete the entry, then
re-broadcast every remaining peer's view.  Returns the new directory and
the broadcast. -/
def handleDisconnect (peers : Directory) (socketId : String) :
    Directory × List (String × List Peer) :=
  let peers2 := removePeer peers socketId
  (peers2, broadcastPeerLists peers2)

/-- Well-formedness of the registry: every stored `Peer`'s `id` field equals
the map key it is stored under.  The server establishes this at registration
(`peers.set(socket.id, { id: socket.id, ... })`) and no handler rewrites
`id`. -/
def WFDir (peers : Directory) : Prop :=
  ∀ kv ∈ peers, (kv : String × Peer).2.id = kv.1

instance (peers : Directory) : Decidable (WFDir peers) := by
  unfold WFDir; infer_instance

/-! ### Basic registry lemmas -/

theorem lookupPeer_nil (socketId : String) : lookupPeer [] socketId = none := rfl

theorem removePeer_of_not_has (peers : Directory) (socketId : String)
    (h : hasPeer peers socketId = false) : removePeer peers socketId = peers := by
  have hnone : peers.find? (fun kv => kv.1 == socketId) = none := by
    unfold hasPeer lookupPeer at h
    cases hf : peers.find? (fun kv => kv.1 == socketId) with
    | none => rfl
    | some v => rw [hf] at h; simp at h
  have hall := List.find?_eq_none.mp hnone
  unfold removePeer
  apply List.filter_eq_self.mpr
  intro a ha
  have := hall a ha
  simp only [beq_iff_eq] at this
  simpa using this

/-- Under well-formedness, filtering the stored peers by their `id` field
(as the code does) is the same as filtering the entries by their key (as
the specification phrases it). -/
theorem filter_by_id_eq_filter_by_key (peers : Directory) (socketId : String)
    (hwf : WFDir peers) :
    (peers.map Prod.snd).filter (fun p => p.id != socketId && p.mode == "receiver") =
      (peers.filter (fun kv => kv.1 != socketId && kv.2.mode == "receiver")).map
        Prod.snd := by
  induction peers with
  | nil => rfl
  | cons kv rest ih =>
    have hid : kv.2.id = kv.1 := hwf kv (List.mem_cons_self kv rest)
    have hrest : WFDir rest := fun e he => hwf e (List.mem_cons_of_mem kv he)
    simp only [List.map_cons, List.filter]
    rw [hid]
    by_cases hc : (kv.1 != socketId && kv.2.mode == "receiver") = true
    · simp only [hc, List.map_cons, ih hrest]
    · simp only [Bool.not_eq_true] at hc
      simp only [hc, ih hrest]

/-! ### Signaling relay (server v2, `offer` / `answer` / `ice-candidate`) -/

/-- A message the relay emits to one destination socket.  `fromName` is
present only where the handler attaches it (the `offer` relay). -/
structure Delivery (α : Type) where
  toId : String
  fromId : String
  fromName : Option String
  payload : α
deriving Repr, DecidableEq

/-- The `offer` relay handler: `if (!peers.has(targetId)) return;` then
emit `{ fromId: socket.id, fromName: from?.name ?? "Unknown", offer }` to
`targetId`.  The handler reads the directory and returns at most one
delivery; it stores nothing. -/
def relayOffer {α : Type} (peers : Directory) (srcId targetId : String)
    (offer : α) : Option (Delivery α) :=
  if hasPeer peers targetId then
    some { toId := targetId, fromId := srcId,
           fromName := some (match lookupPeer peers srcId with
             | some p => p.name
             | none => "Unknown"),
           payload := offer }
  else none

/-- The `answer` relay handler: existence check, then
`{ fromId: socket.id, answer }` to `targetId` (no `fromName`). -/
def relayAnswer {α : Type} (peers : Directory) (srcId targetId : String)
    (answer : α) : Option (Delivery α) :=
  if hasPeer peers targetId then
    some { toId := targetId, fromId := srcId, fromName := none, payload := answer }
  else none

/-- The `ice-candidate` relay handler: existence check, then
`{ fromId: socket.id, candidate }` to `targetId`. -/
def relayIceCandidate {α : Type} (peers : Directory) (srcId targetId : String)
    (candidate : α) : Option (Delivery α) :=
  if hasPeer peers targetId then
    some { toId := targetId, fromId := srcId, fromName := none, payload := candidate }
  else none

/-! ### File relay (server v3) -/

/-- Metadata of a transfer: `{ fileName, fileSize, fileType }`. -/
structure FileMeta where
  fileName : String
  fileSize : Nat
  fileType : String
deriving Repr, DecidableEq

/-- The v3 `transfer-request` handler: existence check on `targetId`, then
`transfer-incoming` with `{ fromId, fromName: from?.name ?? "Unknown", meta }`
to the target. -/
def relayTransferRequest (peers : Directory) (srcId targetId : String)
    (meta : FileMeta) : Option (Delivery FileMeta) :=
  if hasPeer peers targetId then
    some { toId := targetId, fromId := srcId,
           fromName := some (match lookupPeer peers srcId with
             | some p => p.name
             | none => "Unknown"),
           payload := meta }
  else none

/-- What the v3 `file-chunk` handler forwards to the receiver:
`{ chunk, chunkIndex }` emitted to `targetId`.  Chunk bytes are modelled as
`List Nat`. -/
structure ChunkForward where
  toId : String
  chunk : List Nat
  chunkIndex : Nat
deriving Repr, DecidableEq

/-- The v3 `file-chunk` handler: if `targetId` is unknown, acknowledge
`"no-peer"` and forward nothing; otherwise forward `{ chunk, chunkIndex }`
to the target and acknowledge `"ok"`.  Returns (forwarded message,
acknowledgement handed to the sender's callback). -/
def relayFileChunk (peers : Directory) (targetId : String) (chunk : List Nat)
    (chunkIndex : Nat) : Option ChunkForward × String :=
  if hasPeer peers targetId then
    (some { toId := targetId, chunk := chunk, chunkIndex := chunkIndex }, "ok")
  else (none, "no-peer")

/-- The v3 `transfer-done` handler: forwarded iff the target exists. -/
def relayTransferDone (peers : Directory) (targetId : String) : Bool :=
  hasPeer peers targetId

/-! ### Relayed-variant sender session -/

/-- Phase of a transfer session (spec section 4.4). -/
inductive SessionPhase
  | idle
  | metadataSent
  | streaming
  | completed
  | cancelled
deriving Repr, DecidableEq

/-- Modelled from the spec: the relayed-variant sender client is not among
the repository's source files (only the v3 server relay is).  Per the spec,
each chunk send blocks until the relay acknowledges: an `"ok"` authorizes
reading and sending the next chunk; a `"no-peer"` acknowledgement aborts
the session immediately — it transitions to `CANCELLED` and no further
chunk is sent.  Returns (next phase, whether the sender may send another
chunk). -/
def senderHandleAck (phase : SessionPhase) (ack : String) :
    SessionPhase × Bool :=
  if ack == "no-peer" then (SessionPhase.cancelled, false)
  else (phase, true)

/-! ### Receiver assembler (`public/app.js`)

The client's receive state is the module-level record
`rx = { active, meta, chunks, received, startTime }` together with the
`isBusy` flag; both are carried in `RxState`.  Chunk payloads become
`List Nat`; the `Blob` handed to the download anchor becomes the
concatenation of the chunk lists. -/

/-- The client's receive state (`rx` plus `isBusy`). -/
structure RxState where
  active : Bool
  meta : Option FileMeta
  chunks : List (List Nat)
  received : Nat
  busy : Bool
deriving Repr, DecidableEq

/-- `resetReceive()`: clears `rx` (does not touch `isBusy`). -/
def resetReceive (s : RxState) : RxState :=
  { s with active := false, meta := none, chunks := [], received := 0 }

/-- `assembleAndDownload()`: returns early when `!rx.meta` or
`rx.chunks.length === 0`; otherwise builds the Blob from all chunks in
arrival order, hands it off, then `resetReceive()` and `isBusy = false`.
Returns (new state, the assembled byte sequence if one was produced). -/
def assembleAndDownload (s : RxState) : RxState × Option (List Nat) :=
  match s.meta with
  | none => (s, none)
  | some _ =>
    if s.chunks.isEmpty then (s, none)
    else ({ resetReceive s with busy := false }, some s.chunks.flatten)

/-- A frame arriving on the receiver's data channel: a JSON `metadata`
frame, a JSON `done` frame, or a binary chunk. -/
inductive RxMsg
  | metadata (m : FileMeta)
  | done
  | binary (data : List Nat)
deriving Repr, DecidableEq

/-- `handleReceivedMessage(data)`:
* a `metadata` frame arms `rx` (`active`, `meta`, empty chunk list, zero
  byte count);
* a `done` frame calls `assembleAndDownload()`;
* a binary chunk is ignored unless `rx.active && rx.meta`; otherwise it is
  appended, the byte count bumped by its length, and — the safety check —
  `assembleAndDownload()` is called as soon as
  `rx.received >= rx.meta.fileSize`. -/
def handleReceivedMessage (s : RxState) (msg : RxMsg) :
    RxState × Option (List Nat) :=
  match msg with
  | RxMsg.metadata m =>
    ({ s with active := true, meta := some m, chunks := [], received := 0 }, none)
  | RxMsg.done => assembleAndDownload s
  | RxMsg.binary data =>
    match s.meta with
    | none => (s, none)
    | some m =>
      if s.active = false then (s, none)
      else
        let s2 := { s with chunks := s.chunks ++ [data],
                           received := s.received + data.length }
        if m.fileSize ≤ s2.received then assembleAndDownload s2
        else (s2, none)

/-- Feed a sequence of channel frames through `handleReceivedMessage`,
collecting every assembled output in order. -/
def runMessages (s : RxState) (msgs : List RxMsg) :
    RxState × List (List Nat) :=
  match msgs with
  | [] => (s, [])
  | msg :: rest =>
    let step := handleReceivedMessage s msg
    let next := runMessages step.1 rest
    (next.1, step.2.toList ++ next.2)

/-! ### Client busy-flag guards (`public/app.js`) -/

/-- The send-button click handler's guard:
`if (!selectedPeerId || !selectedFile || isBusy) return;` else
`isBusy = true` and the connection attempt starts.  Returns
(whether a transfer is initiated, the `isBusy` flag afterwards). -/
def btnSendClick (selectedPeerId : Option String) (selectedFile : Option String)
    (isBusy : Bool) : Bool × Bool :=
  if selectedPeerId.isNone || selectedFile.isNone || isBusy then (false, isBusy)
  else (true, true)

/-- The receiver's incoming-`offer` handler's guard:
`if (myMode !== "receiver") return; if (isBusy) return;` else
`isBusy = true` and the offer is auto-accepted.  Returns
(whether the offer is accepted, the `isBusy` flag afterwards). -/
def offerGuard (myMode : Option String) (isBusy : Bool) : Bool × Bool :=
  if myMode ≠ some "receiver" then (false, isBusy)
  else if isBusy then (false, isBusy)
  else (true, true)

/-- `oniceconnectionstatechange`: on `"failed"` or `"closed"` the peer
connection is torn down (`closePeerConnection()`) and the busy flag is
released — via `resetTransferUI()` for a sender, via `isBusy = false`
otherwise.  Returns (whether the connection was closed, the `isBusy` flag
afterwards). -/
def onIceStateChange (state : String) (myMode : Option String) (isBusy : Bool) :
    Bool × Bool :=
  if state == "failed" || state == "closed" then
    (true, if myMode == some "sender" then false else false)
  else (false, isBusy)

/-! ### Direct-variant chunked sender (`public/app.js`, `startSendingFile`) -/

/-- `const CHUNK_SIZE = 16384` — 16 KiB. -/
def CHUNK_SIZE : Nat := 16384

/-- `const HIGH_WATERMARK = 1 * 1024 * 1024` — 1 MiB. -/
def HIGH_WATERMARK : Nat := 1 * 1024 * 1024

/-- `const LOW_WATERMARK = 256 * 1024` — 256 KiB. -/
def LOW_WATERMARK : Nat := 256 * 1024

/-- `initiateConnection` sets
`dataChannel.bufferedAmountLowThreshold = LOW_WATERMARK`: the threshold at
which the channel fires the edge-triggered `bufferedamountlow` event the
paused sender awaits in `waitForDrain()`. -/
def bufferedAmountLowThreshold : Nat := LOW_WATERMARK

/-- The chunks the send loop slices off the file:
`file.slice(offset, offset + CHUNK_SIZE)` repeatedly until
`offset >= file.size`. -/
def chunksOf (file : List Nat) : List (List Nat) :=
  if h : file = [] then []
  else
    file.take CHUNK_SIZE :: chunksOf (file.drop CHUNK_SIZE)
termination_by file.length
decreasing_by
  simp only [List.length_drop, CHUNK_SIZE]
  have hlen : 0 < file.length := List.length_pos.mpr h
  omega

/-- One step of the send loop observed from outside: either the sender
awaits the `bufferedamountlow` notification (`waitDrain`), or it sends one
chunk. -/
inductive SendEvent
  | waitDrain
  | send (chunk : List Nat)
deriving Repr, DecidableEq

/-- The send loop, instrumented: `buf i` is `channel.bufferedAmount`
observed at the backpressure check of iteration `i`.  Each iteration first
checks `bufferedAmount > HIGH_WATERMARK` — if so it awaits one
`bufferedamountlow` notification (`await waitForDrain()`) — then reads and
sends the next 16 KiB slice. -/
def sendTraceGo : List (List Nat) → (Nat → Nat) → Nat → List SendEvent
  | [], _, _ => []
  | c :: rest, buf, i =>
    (if HIGH_WATERMARK < buf i then [SendEvent.waitDrain, SendEvent.send c]
     else [SendEvent.send c]) ++ sendTraceGo rest buf (i + 1)

/-- `startSendingFile`'s chunk loop as a trace of events, given the
buffered-amount observations `buf`. -/
def startSendingFile (file : List Nat) (buf : Nat → Nat) : List SendEvent :=
  sendTraceGo (chunksOf file) buf 0

/-- A trace is gated when every chunk is sent either at an observed
buffered amount at or below the high-water mark, or immediately after one
`waitDrain` (the edge-triggered pause); and the chunks sent are exactly the
given ones, in order. -/
def gatedTrace : List (List Nat) → (Nat → Nat) → Nat → List SendEvent → Prop
  | [], _, _, t => t = []
  | c :: rest, buf, i, t =>
    (buf i ≤ HIGH_WATERMARK ∧
      ∃ t2, t = SendEvent.send c :: t2 ∧ gatedTrace rest buf (i + 1) t2) ∨
    (HIGH_WATERMARK < buf i ∧
      ∃ t2, t = SendEvent.waitDrain :: SendEvent.send c :: t2 ∧
        gatedTrace rest buf (i + 1) t2)

/-! ### Helper lemmas -/

/-- Every chunk the send loop slices has at most `CHUNK_SIZE` bytes. -/
theorem chunksOf_sizes (file : List Nat) :
    ∀ c ∈ chunksOf file, c.length ≤ CHUNK_SIZE := by
  have key : ∀ n (f : List Nat), f.length ≤ n → ∀ c ∈ chunksOf f, c.length ≤ CHUNK_SIZE := by
    intro n
    induction n with
    | zero =>
      intro f hf
      have : f = [] := List.eq_nil_of_length_eq_zero (Nat.le_zero.mp hf)
      subst this
      simp [chunksOf]
    | succ n ih =>
      intro f hf c hc
      by_cases h : f = []
      · subst h; simp [chunksOf] at hc
      · rw [chunksOf] at hc
        simp only [h, dite_false] at hc
        rcases List.mem_cons.mp hc with hc | hc
        · subst hc; exact List.length_take_le _ _
        · refine ih (f.drop CHUNK_SIZE) ?_ c hc
          have hlen : 0 < f.length := List.length_pos.mpr h
          simp only [List.length_drop, CHUNK_SIZE]
          simp only [CHUNK_SIZE] at *
          omega
  exact key file.length file le_rfl

/-- The slices cover the file exactly, in order. -/
theorem chunksOf_flatten (file : List Nat) :
    (chunksOf file).flatten = file := by
  have key : ∀ n (f : List Nat), f.length ≤ n → (chunksOf f).flatten = f := by
    intro n
    induction n with
    | zero =>
      intro f hf
      have : f = [] := List.eq_nil_of_length_eq_zero (Nat.le_zero.mp hf)
      subst this
      simp [chunksOf]
    | succ n ih =>
      intro f hf
      by_cases h : f = []
      · subst h; simp [chunksOf]
      · rw [chunksOf]
        simp only [h, dite_false, List.flatten_cons]
        rw [ih (f.drop CHUNK_SIZE) ?_]
        · exact List.take_append_drop _ _
        · have hlen : 0 < f.length := List.length_pos.mpr h
          simp only [List.length_drop, CHUNK_SIZE] at *
          omega
  exact key file.length file le_rfl

/-- The instrumented send loop produces a gated trace over any chunk list
and any buffered-amount observations. -/
theorem sendTraceGo_gated (chunks : List (List Nat)) (buf : Nat → Nat) (i : Nat) :
    gatedTrace chunks buf i (sendTraceGo chunks buf i) := by
  induction chunks generalizing i with
  | nil => simp [sendTraceGo, gatedTrace]
  | cons c rest ih =>
    by_cases hb : HIGH_WATERMARK < buf i
    · exact Or.inr ⟨hb, sendTraceGo rest buf (i + 1), by simp [sendTraceGo, hb], ih (i + 1)⟩
    · exact Or.inl ⟨Nat.le_of_not_lt hb, sendTraceGo rest buf (i + 1),
        by simp [sendTraceGo, hb], ih (i + 1)⟩

/-- Deleting a key removes it: the deleted socket no longer resolves. -/
theorem hasPeer_removePeer_self (peers : Directory) (socketId : String) :
    hasPeer (removePeer peers socketId) socketId = false := by
  induction peers with
  | nil => rfl
  | cons kv rest ih =>
    by_cases hk : kv.1 = socketId
    · simpa [removePeer, List.filter, hk] using ih
    · simpa [removePeer, List.filter, hasPeer, lookupPeer, List.find?, hk] using ih

/-- Remapping the stored records without touching the keys does not change
which socket ids resolve. -/
theorem hasPeer_map_keys (f : String × Peer → String × Peer)
    (hf : ∀ kv, (f kv).1 = kv.1) (peers : Directory) (tid : String) :
    hasPeer (peers.map f) tid = hasPeer peers tid := by
  induction peers with
  | nil => rfl
  | cons kv rest ih =>
    simp only [List.map_cons, hasPeer, lookupPeer, List.find?_cons, hf kv]
    cases hkv : (kv.1 == tid) with
    | true => simp
    | false => simpa [hasPeer, lookupPeer] using ih

/-- `setMode` never changes which socket ids are registered. -/
theorem hasPeer_setMode (peers : Directory) (socketId mode tid : String) :
    hasPeer (setMode peers socketId mode) tid = hasPeer peers tid := by
  unfold setMode
  cases hl : lookupPeer peers socketId with
  | none => rfl
  | some p =>
    by_cases hc : mode ≠ "sender" ∧ mode ≠ "receiver"
    · simp [hc]
    · simp only [if_neg hc]
      refine hasPeer_map_keys _ (fun kv => ?_) peers tid
      by_cases h : (kv.1 == socketId) = true <;> simp [h]

/-! ### Claim theorems -/

/-- C1: for every connected peer, the visibility view is the empty
sequence whenever the stored role is not `"sender"` (in particular for
`"none"`, `"receiver"`, or an unregistered caller), and for a `"sender"`
it is exactly the registered peers with role `"receiver"`, excluding the
caller, in directory iteration order. -/
theorem peer_visibility_view (peers : Directory) (socketId : String)
    (hwf : WFDir peers) :
    ((∀ self, lookupPeer peers socketId = some self → self.mode ≠ "sender") →
      getPeerListFor peers socketId = []) ∧
    (∀ self, lookupPeer peers socketId = some self → self.mode = "sender" →
      getPeerListFor peers socketId =
        (peers.filter (fun kv => kv.1 != socketId && kv.2.mode == "receiver")).map
          Prod.snd) := by
  constructor
  · intro hns
    unfold getPeerListFor
    cases hl : lookupPeer peers socketId with
    | none => rfl
    | some self => simp [hns self hl]
  · intro self hl hsender
    unfold getPeerListFor
    rw [hl]
    simp only [hsender, ne_eq, not_true_eq_false, if_false]
    exact filter_by_id_eq_filter_by_key peers socketId hwf

/-- C1 witness: in a directory with a sender `"a"`, a receiver `"b"` and an
undeclared `"c"`, the sender's view is exactly the receiver. -/
theorem peer_visibility_view_at_sample :
    getPeerListFor
        [("a", { id := "a", name := "Ann", mode := "sender" }),
         ("b", { id := "b", name := "Bob", mode := "receiver" }),
         ("c", { id := "c", name := "Cal", mode := "none" })] "a" =
      [{ id := "b", name := "Bob", mode := "receiver" }] := by
  have h := (peer_visibility_view
      [("a", { id := "a", name := "Ann", mode := "sender" }),
       ("b", { id := "b", name := "Bob", mode := "receiver" }),
       ("c", { id := "c", name := "Cal", mode := "none" })] "a" (by decide)).2
      { id := "a", name := "Ann", mode := "sender" } (by decide) rfl
  rw [h]
  rfl

/-- C2: in the relayed variant, a file-chunk addressed to an unregistered
target is not forwarded and is acknowledged `"no-peer"`; one addressed to a
registered target is forwarded as `{chunk, chunkIndex}` to that target and
acknowledged `"ok"`; and (modelled from the spec, the relayed sender client
not being among the sources) a `"no-peer"` acknowledgement moves the sender
session to `CANCELLED` with no further sends, while `"ok"` authorizes the
next chunk. -/
theorem relayed_chunk_ack (peers : Directory) (targetId : String)
    (chunk : List Nat) (chunkIndex : Nat) (phase : SessionPhase) :
    (hasPeer peers targetId = false →
      relayFileChunk peers targetId chunk chunkIndex = (none, "no-peer")) ∧
    (hasPeer peers targetId = true →
      relayFileChunk peers targetId chunk chunkIndex =
        (some { toId := targetId, chunk := chunk, chunkIndex := chunkIndex }, "ok")) ∧
    senderHandleAck phase "no-peer" = (SessionPhase.cancelled, false) ∧
    senderHandleAck phase "ok" = (phase, true) :=
  ⟨fun h => by simp [relayFileChunk, h],
   fun h => by simp [relayFileChunk, h],
   rfl, rfl⟩

/-- C4: a transfer start attempted while the sender is busy, and an
incoming offer while the receiver is busy, are rejected with the state
untouched (nothing is queued, the busy flag keeps its value); conversely a
permitted start or accepted offer takes the busy flag. -/
theorem busy_flag_guards (selectedPeerId selectedFile : Option String)
    (myMode : Option String) (isBusy : Bool) :
    (isBusy = true →
      btnSendClick selectedPeerId selectedFile isBusy = (false, true)) ∧
    (isBusy = true → offerGuard myMode isBusy = (false, true)) ∧
    (∀ pid f, btnSendClick (some pid) (some f) false = (true, true)) ∧
    offerGuard (some "receiver") false = (true, true) := by
  refine ⟨fun h => ?_, fun h => ?_, fun pid f => rfl, rfl⟩
  · subst h; simp [btnSendClick]
  · subst h
    by_cases hm : myMode = some "receiver" <;> simp [offerGuard, hm]

/-- C5: for offer, answer and network-candidate messages the relay
silently drops the message when the destination id is not registered, and
otherwise delivers `(sourceId, sourceName where applicable, payload)` to
the destination connection only; the relay functions read the directory
and return at most one delivery — they keep no negotiation state. -/
theorem signaling_relay_routing {α : Type} (peers : Directory)
    (srcId targetId : String) (payload : α) :
    (hasPeer peers targetId = false →
      relayOffer peers srcId targetId payload = none ∧
      relayAnswer peers srcId targetId payload = none ∧
      relayIceCandidate peers srcId targetId payload = none) ∧
    (hasPeer peers targetId = true →
      relayOffer peers srcId targetId payload =
        some { toId := targetId, fromId := srcId,
               fromName := some (match lookupPeer peers srcId with
                 | some p => p.name
                 | none => "Unknown"),
               payload := payload } ∧
      relayAnswer peers srcId targetId payload =
        some { toId := targetId, fromId := srcId, fromName := none,
               payload := payload } ∧
      relayIceCandidate peers srcId targetId payload =
        some { toId := targetId, fromId := srcId, fromName := none,
               payload := payload }) :=
  ⟨fun h => by simp [relayOffer, relayAnswer, relayIceCandidate, h],
   fun h => by simp [relayOffer, relayAnswer, relayIceCandidate, h]⟩

/-- C9: the forwarding condition for transfer-request (and offer) is solely
that the target id exists in the directory: it equals `hasPeer`, is
untouched by any role change of the target, and a registered target is
delivered to whatever its stored role is. -/
theorem forwarding_checks_only_existence (peers : Directory)
    (srcId targetId mode : String) (meta : FileMeta) (offer : String) :
    ((relayTransferRequest peers srcId targetId meta).isSome =
      hasPeer peers targetId) ∧
    ((relayOffer peers srcId targetId offer).isSome = hasPeer peers targetId) ∧
    ((relayTransferRequest (setMode peers targetId mode) srcId targetId meta).isSome =
      (relayTransferRequest peers srcId targetId meta).isSome) ∧
    (∀ p, lookupPeer peers targetId = some p →
      (relayTransferRequest peers srcId targetId meta).isSome = true) := by
  have hmain : ∀ (ps : Directory),
      (relayTransferRequest ps srcId targetId meta).isSome = hasPeer ps targetId := by
    intro ps
    by_cases h : hasPeer ps targetId = true
    · simp [relayTransferRequest, h]
    · simp only [Bool.not_eq_true] at h
      simp [relayTransferRequest, h]
  refine ⟨hmain peers, ?_, ?_, ?_⟩
  · by_cases h : hasPeer peers targetId = true
    · simp [relayOffer, h]
    · simp only [Bool.not_eq_true] at h
      simp [relayOffer, h]
  · rw [hmain, hmain, hasPeer_setMode]
  · intro p hp
    rw [hmain]
    simp [hasPeer, hp]

/-- C10: a completion signal arriving after metadata but before any binary
chunk leaves `assembleAndDownload` without output: the receive state is not
reset and the busy flag keeps its value — the session does not finalize. -/
theorem done_before_any_chunk_is_noop (s : RxState) (m : FileMeta)
    (hmeta : s.meta = some m) (hchunks : s.chunks = []) :
    handleReceivedMessage s RxMsg.done = (s, none) := by
  simp [handleReceivedMessage, assembleAndDownload, hmeta, hchunks]

/-- C10 witness: a receiver armed for a 1024-byte file that got only the
completion signal stays armed and busy, producing nothing. -/
theorem done_before_any_chunk_is_noop_at_sample :
    handleReceivedMessage
        { active := true,
          meta := some { fileName := "empty.bin", fileSize := 1024,
                         fileType := "application/octet-stream" },
          chunks := [], received := 0, busy := true } RxMsg.done =
      ({ active := true,
         meta := some { fileName := "empty.bin", fileSize := 1024,
                        fileType := "application/octet-stream" },
         chunks := [], received := 0, busy := true }, none) :=
  done_before_any_chunk_is_noop _
    { fileName := "empty.bin", fileSize := 1024,
      fileType := "application/octet-stream" } rfl rfl

/-- C3 counterexample: with metadata declaring 4 bytes and the explicit
completion signal arriving with 0 bytes (no chunks) accumulated — fewer
than the declared size — the assembler does NOT finalize: no output is
produced and the state, still active and busy, is unchanged.  This refutes
the claim that a completion signal with fewer than `S` bytes accumulated
always triggers finalization. -/
theorem done_with_zero_chunks_does_not_finalize :
    handleReceivedMessage
        { active := true,
          meta := some { fileName := "f", fileSize := 4, fileType := "t" },
          chunks := [], received := 0, busy := true } RxMsg.done =
      ({ active := true,
         meta := some { fileName := "f", fileSize := 4, fileType := "t" },
         chunks := [], received := 0, busy := true }, none) ∧
    ({ active := true,
       meta := some { fileName := "f", fileSize := 4, fileType := "t" },
       chunks := [], received := 0, busy := true } : RxState).received < 4 :=
  ⟨rfl, by decide⟩

/-- C3 (amended): finalization triggers as soon as the accumulated byte
count reaches the declared size, with no completion signal needed; an
explicit completion signal with fewer than the declared bytes also
finalizes provided at least one chunk has been received (with no chunks it
is a no-op); and finalization is a once-latch — from the reset state both
a further completion signal and a further chunk are no-ops. -/
theorem finalize_triggers_and_latch (s : RxState) (m : FileMeta)
    (data : List Nat) (hactive : s.active = true) (hmeta : s.meta = some m) :
    (m.fileSize ≤ s.received + data.length →
      handleReceivedMessage s (RxMsg.binary data) =
        ({ active := false, meta := none, chunks := [], received := 0,
           busy := false }, some (s.chunks ++ [data]).flatten)) ∧
    (s.received < m.fileSize → s.chunks ≠ [] →
      handleReceivedMessage s RxMsg.done =
        ({ active := false, meta := none, chunks := [], received := 0,
           busy := false }, some s.chunks.flatten)) ∧
    (handleReceivedMessage
        { active := false, meta := none, chunks := [], received := 0,
          busy := false } RxMsg.done =
      ({ active := false, meta := none, chunks := [], received := 0,
         busy := false }, none)) ∧
    (∀ d, handleReceivedMessage
        { active := false, meta := none, chunks := [], received := 0,
          busy := false } (RxMsg.binary d) =
      ({ active := false, meta := none, chunks := [], received := 0,
         busy := false }, none)) := by
  refine ⟨fun h => ?_, fun hlt hne => ?_, rfl, fun d => rfl⟩
  · simp [handleReceivedMessage, hmeta, hactive, assembleAndDownload,
      resetReceive, h]
  · simp [handleReceivedMessage, hmeta, assembleAndDownload, resetReceive, hne]

/-- C3 witness: a receiver expecting 3 bytes that holds `[1]` finalizes on
the chunk `[2, 3]` that completes the count, producing the concatenation
and resetting to the idle, non-busy state. -/
theorem finalize_triggers_and_latch_at_sample :
    handleReceivedMessage
        { active := true,
          meta := some { fileName := "g", fileSize := 3, fileType := "t" },
          chunks := [[1]], received := 1, busy := true } (RxMsg.binary [2, 3]) =
      ({ active := false, meta := none, chunks := [], received := 0,
         busy := false }, some [1, 2, 3]) := by
  have h := (finalize_triggers_and_latch
      { active := true,
        meta := some { fileName := "g", fileSize := 3, fileType := "t" },
        chunks := [[1]], received := 1, busy := true }
      { fileName := "g", fileSize := 3, fileType := "t" } [2, 3] rfl rfl).1
      (by decide)
  simpa using h

/-- C6: disconnecting a socket removes its record (a no-op when the id is
unknown), rebroadcasts a freshly recomputed view to exactly the remaining
peers, and — on the direct-variant clients — loss of the session's
connection (`"failed"`/`"closed"` transport state) tears the connection
down and releases the busy flag on either side, sender or receiver; on the
relayed variant the sender's next chunk towards the removed id draws a
`"no-peer"` acknowledgement, which cancels its session. -/
theorem disconnect_cleanup (peers : Directory) (socketId : String)
    (myMode : Option String) (isBusy : Bool) (phase : SessionPhase)
    (chunk : List Nat) (chunkIndex : Nat) :
    (hasPeer peers socketId = false →
      (handleDisconnect peers socketId).1 = peers) ∧
    ((handleDisconnect peers socketId).1 = removePeer peers socketId) ∧
    (hasPeer (handleDisconnect peers socketId).1 socketId = false) ∧
    ((handleDisconnect peers socketId).2.map Prod.fst =
      (removePeer peers socketId).map Prod.fst) ∧
    (∀ e ∈ (handleDisconnect peers socketId).2,
      e.2 = getPeerListFor (removePeer peers socketId) e.1) ∧
    (onIceStateChange "failed" myMode isBusy = (true, false)) ∧
    (onIceStateChange "closed" myMode isBusy = (true, false)) ∧
    (relayFileChunk (handleDisconnect peers socketId).1 socketId chunk chunkIndex =
      (none, "no-peer")) ∧
    (senderHandleAck phase "no-peer" = (SessionPhase.cancelled, false)) := by
  refine ⟨fun h => removePeer_of_not_has peers socketId h, rfl,
    hasPeer_removePeer_self peers socketId, ?_, ?_, ?_, ?_, ?_, rfl⟩
  · simp [handleDisconnect, broadcastPeerLists]
  · intro e he
    simp only [handleDisconnect, broadcastPeerLists, List.mem_map] at he
    obtain ⟨kv, _, rfl⟩ := he
    rfl
  · simp [onIceStateChange]
  · simp [onIceStateChange]
  · simp [relayFileChunk, handleDisconnect, hasPeer_removePeer_self]

/-- C7: in the direct variant every chunk the send loop slices has at most
`CHUNK_SIZE = 16384` bytes and the slices cover the file exactly in order;
the instrumented loop yields a gated trace — a chunk is sent immediately
only when the observed buffered amount is at or below the high-water mark
(`HIGH_WATERMARK = 1048576`), and otherwise only after awaiting one
edge-triggered `bufferedamountlow` notification, whose threshold the
connection setup fixes at `bufferedAmountLowThreshold = 262144`. -/
theorem direct_sender_flow_control (file : List Nat) (buf : Nat → Nat) :
    (∀ c ∈ chunksOf file, c.length ≤ CHUNK_SIZE) ∧
    (chunksOf file).flatten = file ∧
    gatedTrace (chunksOf file) buf 0 (startSendingFile file buf) ∧
    CHUNK_SIZE = 16384 ∧ HIGH_WATERMARK = 1048576 ∧
    bufferedAmountLowThreshold = 262144 :=
  ⟨chunksOf_sizes file, chunksOf_flatten file, sendTraceGo_gated _ buf 0,
    rfl, rfl, rfl⟩

/-- C8: for chunks of sizes 262144, 262144 and 131072 delivered after
metadata declaring 655360 bytes, the assembler finalizes with exactly the
concatenation of the three chunks in arrival order, of length 655360. -/
theorem assembled_byte_sequence (c1 c2 c3 : List Nat)
    (h1 : c1.length = 262144) (h2 : c2.length = 262144)
    (h3 : c3.length = 131072) :
    (runMessages
        { active := false, meta := none, chunks := [], received := 0,
          busy := true }
        [RxMsg.metadata { fileName := "f", fileSize := 655360, fileType := "t" },
         RxMsg.binary c1, RxMsg.binary c2, RxMsg.binary c3]).2 =
      [c1 ++ (c2 ++ c3)] ∧
    (c1 ++ (c2 ++ c3)).length = 655360 := by
  constructor
  · simp only [runMessages, handleReceivedMessage, assembleAndDownload,
      resetReceive]
    simp only [h1, h2, h3]
    norm_num
  · simp only [List.length_append, h1, h2, h3]

/-- C8 witness at three concrete chunks of the stated sizes. -/
theorem assembled_byte_sequence_at_sample :
    (runMessages
        { active := false, meta := none, chunks := [], received := 0,
          busy := true }
        [RxMsg.metadata { fileName := "f", fileSize := 655360, fileType := "t" },
         RxMsg.binary (List.replicate 262144 7),
         RxMsg.binary (List.replicate 262144 8),
         RxMsg.binary (List.replicate 131072 9)]).2 =
      [List.replicate 262144 7 ++
        (List.replicate 262144 8 ++ List.replicate 131072 9)] ∧
    (List.replicate 262144 7 ++
      (List.replicate 262144 8 ++ List.replicate 131072 9)).length = 655360 :=
  assembled_byte_sequence (List.replicate 262144 7) (List.replicate 262144 8)
    (List.replicate 131072 9) (List.length_replicate 262144 7)
    (List.length_replicate 262144 8) (List.length_replicate 131072 9)

end AthenaX
